import Mathlib

/-!
Verification development for the wink-mqtt-rs bridge.

Strings manipulated by the program are modelled as `List Char`.  Machine
integers (`u8`/`u16`/`u32`/`u64`) are modelled as `Nat` together with
explicit width bounds (`n < 2 ^ w`) and explicit `% 2 ^ 32` where the code
truncates (`as u32`).  Fallible Rust functions returning `Result` are
modelled with `Except`.
-/

set_option maxRecDepth 10000

namespace WinkMqtt

instance {ε α : Type} [DecidableEq ε] [DecidableEq α] : DecidableEq (Except ε α)
  | .ok a, .ok b =>
    if h : a = b then .isTrue (by rw [h]) else .isFalse (by intro hc; cases hc; exact h rfl)
  | .error a, .error b =>
    if h : a = b then .isTrue (by rw [h]) else .isFalse (by intro hc; cases hc; exact h rfl)
  | .ok _, .error _ => .isFalse (by intro h; cases h)
  | .error _, .ok _ => .isFalse (by intro h; cases h)

/-- Model of Rust `std::num::ParseIntError` kinds relevant to the code
(`Empty`, `InvalidDigit`, `PosOverflow`). -/
inductive PIErr where
  | empty
  | invalidDigit
  | posOverflow
  deriving DecidableEq

/-- Decimal digit test and value, as in Rust `char::to_digit(10)`. -/
def digit? (c : Char) : Option Nat :=
  if '0' ≤ c ∧ c ≤ '9' then some (c.toNat - 48) else none

/-- Hexadecimal digit value, as in Rust `char::to_digit(16)`. -/
def hexDigit? (c : Char) : Option Nat :=
  if '0' ≤ c ∧ c ≤ '9' then some (c.toNat - 48)
  else if 'a' ≤ c ∧ c ≤ 'f' then some (c.toNat - 87)
  else if 'A' ≤ c ∧ c ≤ 'F' then some (c.toNat - 55)
  else none

/-- Accumulate the value of a digit string in base `b`; `none` on the first
non-digit.  Models the digit loop of Rust `from_str_radix`. -/
def digitsVal? (dig : Char → Option Nat) (b : Nat) : List Char → Nat → Option Nat
  | [], acc => some acc
  | c :: rest, acc =>
    match dig c with
    | none => none
    | some d => digitsVal? dig b rest (b * acc + d)

/-- Value-and-range step of Rust `from_str_radix` after the sign has been
stripped: at least one digit, all digits valid, result below `2 ^ w`. -/
def digitsPart (dig : Char → Option Nat) (b w : Nat) (l : List Char) : Except PIErr Nat :=
  if l = [] then .error .invalidDigit
  else
    match digitsVal? dig b l 0 with
    | none => .error .invalidDigit
    | some n => if n < 2 ^ w then .ok n else .error .posOverflow

/-- Model of Rust `str::parse::<uN>` / `uN::from_str_radix(s, 10)` for an
unsigned integer of width `w`: optional leading `+`, then decimal digits. -/
def rustParseU (w : Nat) (s : List Char) : Except PIErr Nat :=
  if s = [] then .error .empty
  else if s.headD ' ' = '+' then digitsPart digit? 10 w (s.drop 1)
  else digitsPart digit? 10 w s

/-- Model of Rust `u64::from_str_radix(s, 16)`. -/
def rustParseHexU64 (s : List Char) : Except PIErr Nat :=
  if s = [] then .error .empty
  else if s.headD ' ' = '+' then digitsPart hexDigit? 16 64 (s.drop 1)
  else digitsPart hexDigit? 16 64 s

/-- Little-endian decimal digits of `n`, with explicit fuel for structural
recursion.  `decAux (n+1) n` yields the digits of a positive `n`. -/
def decAux : Nat → Nat → List Char
  | 0, _ => []
  | fuel + 1, n => if n = 0 then [] else Char.ofNat (48 + n % 10) :: decAux fuel (n / 10)

/-- Model of Rust `format!("{}", n)` for an unsigned integer value `n`. -/
def natToDec (n : Nat) : List Char :=
  if n = 0 then ['0'] else (decAux (n + 1) n).reverse

/-- Prefix test, as in Rust `str::starts_with`. -/
def isPre : List Char → List Char → Bool
  | [], _ => true
  | _ :: _, [] => false
  | a :: as_, b :: bs => a = b && isPre as_ bs

/-- Model of `Numberish::parse_numberish` from `src/utils.rs`, up to the
64-bit stage: `0x`-prefixed input has its leading zeros stripped and is read
as base-16 (`u64::from_str_radix`), otherwise the input is read as base-10
(`str::parse::<u64>`). -/
def parseNumberishU64 (s : List Char) : Except PIErr Nat :=
  if isPre "0x".data s then rustParseHexU64 ((s.drop 2).dropWhile (fun c => c = '0'))
  else rustParseU 64 s

/-- Model of `Numberish::parse_numberish::<T>` from `src/utils.rs` for a
target width `w`: the 64-bit value must fit in `w` bits, otherwise the
error of `u8::from_str("257")` (a `PosOverflow`) is returned. -/
def parseNumberish (w : Nat) (s : List Char) : Except PIErr Nat :=
  match parseNumberishU64 s with
  | .error e => .error e
  | .ok v => if v < 2 ^ w then .ok v else .error .posOverflow

/-- ASCII whitespace recognized by Rust `str::trim` (the non-ASCII
White_Space code points play no role in any claim and are not modelled). -/
def rustIsWhitespace (c : Char) : Bool :=
  c = ' ' || c = '\t' || c = '\n' || c = '\r' || c = '\x0b' || c = '\x0c'

/-- Model of Rust `str::trim`. -/
def rustTrim (l : List Char) : List Char :=
  ((l.dropWhile rustIsWhitespace).reverse.dropWhile rustIsWhitespace).reverse

/-- Model of Rust `str::split("/")` : the list of `/`-separated components,
including empty ones; never the empty list. -/
def splitSlash : List Char → List (List Char)
  | [] => [[]]
  | c :: rest =>
    match splitSlash rest with
    | [] => [[c]]
    | h :: t => if c = '/' then [] :: h :: t else (c :: h) :: t

/-! ## Attribute value model (`src/controller.rs`) -/

/-- `AttributeType` from `src/controller.rs`. -/
inductive AttributeType where
  | bool
  | string
  | uint8
  | uint16
  | uint32
  | uint64
  deriving DecidableEq

/-- `AttributeValue` from `src/controller.rs`.  Machine integers are `Nat`
values; well-formed values satisfy `AttributeValue.wfb`. -/
inductive AttributeValue where
  | noValue
  | bool (b : Bool)
  | str (s : List Char)
  | uint8 (n : Nat)
  | uint16 (n : Nat)
  | uint32 (n : Nat)
  | uint64 (n : Nat)
  deriving DecidableEq

/-- Width bounds making an `AttributeValue` the image of a Rust value. -/
def AttributeValue.wfb : AttributeValue → Bool
  | .uint8 n => n < 2 ^ 8
  | .uint16 n => n < 2 ^ 16
  | .uint32 n => n < 2 ^ 32
  | .uint64 n => n < 2 ^ 64
  | _ => true

/-- `AttributeValue::attribute_type` from `src/controller.rs`. -/
def AttributeValue.attributeType : AttributeValue → Option AttributeType
  | .noValue => none
  | .bool _ => some .bool
  | .str _ => some .string
  | .uint8 _ => some .uint8
  | .uint16 _ => some .uint16
  | .uint32 _ => some .uint32
  | .uint64 _ => some .uint64

/-- `AttributeValue::or` from `src/controller.rs`. -/
def AttributeValue.or (v other : AttributeValue) : AttributeValue :=
  if v = .noValue then other else v

/-- Model of `serde_json::Value`.  Numbers are modelled as integers (the
code only ever produces unsigned integers; floating-point numbers, on which
`as_u64` also fails, are not modelled). -/
inductive Json where
  | null
  | jbool (b : Bool)
  | num (n : Int)
  | jstr (s : List Char)
  | arr (l : List Json)
  | obj (l : List (List Char × Json))

/-- `AttributeValue::to_json` from `src/controller.rs`. -/
def AttributeValue.toJson : AttributeValue → Json
  | .noValue => .null
  | .bool b => .jbool b
  | .uint8 n => .num n
  | .uint16 n => .num n
  | .uint32 n => .num n
  | .uint64 n => .num n
  | .str s => .jstr s

/-- Rendering of a JSON value to text, modelling `serde_json::Value`'s
`Display`; used by `AttributeType::parse_json` only in its
catch-all arm for `String`-typed attributes.  String escaping covers the
escapes serde emits for the characters that can appear in our claims. -/
def jsonEscape (s : List Char) : List Char :=
  s.flatMap fun c =>
    if c = '"' then ['\\', '"']
    else if c = '\\' then ['\\', '\\']
    else if c = '\n' then ['\\', 'n']
    else if c = '\t' then ['\\', 't']
    else if c = '\r' then ['\\', 'r']
    else [c]

/-- Decimal rendering of a JSON integer. -/
def intToDec (n : Int) : List Char :=
  if n < 0 then '-' :: natToDec n.natAbs else natToDec n.natAbs

mutual

/-- Compact rendering of a `Json` value, as `serde_json::Value::to_string`. -/
def jsonRender : Json → List Char
  | .null => "null".data
  | .jbool true => "true".data
  | .jbool false => "false".data
  | .num n => intToDec n
  | .jstr s => '"' :: jsonEscape s ++ ['"']
  | .arr l => '[' :: jsonRenderList l ++ [']']
  | .obj l => '{' :: jsonRenderObj l ++ ['}']

def jsonRenderList : List Json → List Char
  | [] => []
  | [x] => jsonRender x
  | x :: y :: rest => jsonRender x ++ ',' :: jsonRenderList (y :: rest)

def jsonRenderObj : List (List Char × Json) → List Char
  | [] => []
  | [(k, v)] => '"' :: jsonEscape k ++ '"' :: ':' :: jsonRender v
  | (k, v) :: y :: rest =>
    '"' :: jsonEscape k ++ '"' :: ':' :: jsonRender v ++ ',' :: jsonRenderObj (y :: rest)

end

/-- Error type for the fallible decoders of `src/controller.rs` (the code
uses boxed dynamic errors; only the distinction ok/error is observable). -/
inductive DecodeErr where
  | badBool (s : List Char)
  | notU64 (n : Int)
  | numErr (e : PIErr)
  | unknownValue (t : AttributeType)
  deriving DecidableEq

/-- `serde_json::Number::as_u64` on our integer model: succeeds exactly on
the nonnegative integers below `2 ^ 64` (negative numbers are stored as
`i64` by serde and `as_u64` returns `None` on them). -/
def asU64 : Int → Except DecodeErr Nat
  | .ofNat m => if m < 2 ^ 64 then .ok m else .error (.notU64 (.ofNat m))
  | .negSucc m => .error (.notU64 (.negSucc m))

/-- Rust `u64 as uN` conversion check `try_into` for width `w`. -/
def tryIntoW (w n : Nat) : Except DecodeErr Nat :=
  if n < 2 ^ w then .ok n else .error (.numErr .posOverflow)

/-- `AttributeType::parse_json` from `src/controller.rs`, arm for arm. -/
def AttributeType.parseJson (t : AttributeType) (v : Json) : Except DecodeErr AttributeValue :=
  match v, t with
  | .jstr s, .string => .ok (.str s)
  | v, .string => .ok (.str (jsonRender v))
  | .num n, .uint8 =>
    match asU64 n with
    | .error e => .error e
    | .ok u =>
      match tryIntoW 8 u with
      | .error e => .error e
      | .ok u => .ok (.uint8 u)
  | .num n, .uint16 =>
    match asU64 n with
    | .error e => .error e
    | .ok u =>
      match tryIntoW 16 u with
      | .error e => .error e
      | .ok u => .ok (.uint16 u)
  | .num n, .uint32 =>
    match asU64 n with
    | .error e => .error e
    | .ok u =>
      match tryIntoW 32 u with
      | .error e => .error e
      | .ok u => .ok (.uint32 u)
  | .num n, .uint64 =>
    match asU64 n with
    | .error e => .error e
    | .ok u => .ok (.uint64 u)
  | .jbool b, .bool => .ok (.bool b)
  | _, t => .error (.unknownValue t)

/-- Rust `char::to_ascii_lowercase`. -/
def asciiLower (c : Char) : Char :=
  if 'A' ≤ c ∧ c ≤ 'Z' then Char.ofNat (c.toNat + 32) else c

/-- `AttributeType::parse` from `src/controller.rs`: trims the payload,
then decodes it according to the expected type. -/
def AttributeType.parseText (t : AttributeType) (s : List Char) : Except DecodeErr AttributeValue :=
  let p := rustTrim s
  match t with
  | .uint8 => (rustParseU 8 p).map .uint8 |>.mapError .numErr
  | .uint16 => (rustParseU 16 p).map .uint16 |>.mapError .numErr
  | .uint32 => (rustParseU 32 p).map .uint32 |>.mapError .numErr
  | .uint64 => (rustParseU 64 p).map .uint64 |>.mapError .numErr
  | .string => .ok (.str p)
  | .bool =>
    let low := p.map asciiLower
    if low = "true".data ∨ low = "1".data ∨ low = "yes".data ∨ low = "on".data then
      .ok (.bool true)
    else if low = "false".data ∨ low = "0".data ∨ low = "no".data ∨ low = "off".data then
      .ok (.bool false)
    else .error (.badBool p)

/-- The textual encoding used by `AprontestController::set` in
`src/controller.rs` for the `-v` argument; `None` models the
`bail!` on `NoValue`. -/
def valueToText : AttributeValue → Option (List Char)
  | .noValue => none
  | .uint8 n => some (natToDec n)
  | .uint16 n => some (natToDec n)
  | .uint32 n => some (natToDec n)
  | .uint64 n => some (natToDec n)
  | .bool true => some "TRUE".data
  | .bool false => some "FALSE".data
  | .str s => some s

/-! ## Device protocol parsing: `AprontestController::describe` rows -/

/-- Error type for a single attribute row of `describe` output. -/
inductive RowErr where
  | badType (t : List Char)
  | numErr (e : PIErr)
  | badVal (s : List Char)
  deriving DecidableEq

/-- `parse_attr_value` from `src/controller.rs`: empty field is `NoValue`,
else the field decodes per the declared type (numerics by plain `str::parse`,
`BOOL` by exact `TRUE`/`FALSE`, `STRING` verbatim). -/
def parseAttrValue (t : AttributeType) (v : List Char) : Except RowErr AttributeValue :=
  if v = [] then .ok .noValue
  else
    match t with
    | .uint8 => (rustParseU 8 v).map .uint8 |>.mapError .numErr
    | .uint16 => (rustParseU 16 v).map .uint16 |>.mapError .numErr
    | .uint32 => (rustParseU 32 v).map .uint32 |>.mapError .numErr
    | .uint64 => (rustParseU 64 v).map .uint64 |>.mapError .numErr
    | .bool =>
      if v = "TRUE".data then .ok (.bool true)
      else if v = "FALSE".data then .ok (.bool false)
      else .error (.badVal v)
    | .string => .ok (.str v)

/-- The exact-match TYPE-token table of `AprontestController::describe`. -/
def parseTypeTok (s : List Char) : Except RowErr AttributeType :=
  if s = "UINT8".data then .ok .uint8
  else if s = "UINT16".data then .ok .uint16
  else if s = "UINT32".data then .ok .uint32
  else if s = "UINT64".data then .ok .uint64
  else if s = "BOOL".data then .ok .bool
  else if s = "STRING".data then .ok .string
  else .error (.badType s)

/-- `DeviceAttribute` from `src/controller.rs`. -/
structure DeviceAttribute where
  id : Nat
  description : List Char
  attributeType : AttributeType
  supportsWrite : Bool
  supportsRead : Bool
  currentValue : AttributeValue
  settingValue : AttributeValue
  deriving DecidableEq

/-- The per-row closure of `AprontestController::describe`, taking the six
capture-group strings of `ATTRIBUTE_REGEX` for one row. -/
structure AttrRow where
  idStr : List Char
  descStr : List Char
  typeStr : List Char
  modeStr : List Char
  getStr : List Char
  setStr : List Char
  deriving DecidableEq

/-- One attribute row of `describe`: the TYPE token is matched first
(bailing on an unknown token), then the id is parsed as `u32`, the mode is
tested for `W`/`R` substrings, and the trimmed GET/SET fields are decoded
with `parse_attr_value`. -/
def parseRow (r : AttrRow) : Except RowErr DeviceAttribute :=
  match parseTypeTok r.typeStr with
  | .error e => .error e
  | .ok t =>
    match (rustParseU 32 r.idStr).mapError RowErr.numErr with
    | .error e => .error e
    | .ok i =>
      match parseAttrValue t (rustTrim r.getStr) with
      | .error e => .error e
      | .ok cur =>
        match parseAttrValue t (rustTrim r.setStr) with
        | .error e => .error e
        | .ok setv =>
          .ok { id := i, description := rustTrim r.descStr, attributeType := t,
                supportsWrite := r.modeStr.contains 'W',
                supportsRead := r.modeStr.contains 'R',
                currentValue := cur, settingValue := setv }

/-- `LongDevice` from `src/controller.rs`. -/
structure LongDevice where
  gangId : Option Nat
  genericDeviceType : Option Nat
  specificDeviceType : Option Nat
  manufacturerId : Option Nat
  productType : Option Nat
  productNumber : Option Nat
  id : Nat
  status : List Char
  name : List Char
  attributes : List DeviceAttribute
  deriving DecidableEq

/-- The capture groups of `LONG_DEVICE_REGEX`: optional header fields, an
optional status, the name line, and the attribute rows.  The regex engine
itself is external; `describe`'s behaviour is modelled as a function of its
output. -/
structure LongCaptures where
  gangId : Option (List Char)
  genericDeviceType : Option (List Char)
  specificDeviceType : Option (List Char)
  manufacturerId : Option (List Char)
  productType : Option (List Char)
  productNumber : Option (List Char)
  deviceStatus : Option (List Char)
  nameStr : Option (List Char)
  rows : List AttrRow
  deriving DecidableEq

/-- Errors of `describe` as a whole. -/
inductive DescErr where
  | noMatch (raw : List Char)
  | numErr (e : PIErr)
  deriving DecidableEq

/-- `.map(|v| v.as_str().parse_numberish()).transpose()?` on an optional
capture group, at target width `w`. -/
def optNumberish (w : Nat) : Option (List Char) → Except DescErr (Option Nat)
  | none => .ok none
  | some s =>
    match parseNumberish w s with
    | .error e => .error (.numErr e)
    | .ok v => .ok (some v)

/-- The six hardware-identification fields of `describe`, in source order
and with the widths of the `LongDevice` fields. -/
def parseMetas (p : LongCaptures) :
    Except DescErr (Option Nat × Option Nat × Option Nat × Option Nat × Option Nat × Option Nat) := do
  let g ← optNumberish 32 p.gangId
  let gd ← optNumberish 8 p.genericDeviceType
  let sd ← optNumberish 8 p.specificDeviceType
  let mi ← optNumberish 16 p.manufacturerId
  let pt ← optNumberish 16 p.productType
  let pn ← optNumberish 16 p.productNumber
  return (g, gd, sd, mi, pt, pn)

/-- `AprontestController::describe` from `src/controller.rs`, as a function
of the match result of `LONG_DEVICE_REGEX` on the captured stdout: no match
is a hard failure carrying the raw text; with a match, each attribute row
is parsed and rows failing to parse are dropped (`filter_map` with logging). -/
def describeFromCaptures (masterId : Nat) (stdout : List Char) (caps : Option LongCaptures) :
    Except DescErr LongDevice :=
  match caps with
  | none => .error (.noMatch stdout)
  | some p =>
    match parseMetas p with
    | .error e => .error e
    | .ok (g, gd, sd, mi, pt, pn) =>
      .ok { gangId := g, genericDeviceType := gd, specificDeviceType := sd,
            manufacturerId := mi, productType := pt, productNumber := pn,
            id := masterId,
            status := p.deviceStatus.getD [],
            name := p.nameStr.getD [],
            attributes := p.rows.filterMap (fun r => (parseRow r).toOption) }

/-! ## Topic addressing scheme (`src/config.rs`) -/

/-- `Config` from `src/config.rs` (the MQTT connection options are external
and not modelled). -/
structure Config where
  topicPre : Option (List Char)
  discoveryPre : Option (List Char)
  discoveryListen : Option (List Char)
  resyncInterval : Nat
  httpPort : Option Nat
  deriving DecidableEq

/-- `Config::normalize_topic_prefix`: remove every trailing `/`
(`SLASHES_ON_END_REGEX`), then append exactly one. -/
def normalizeTopicPre (x : List Char) : List Char :=
  (x.reverse.dropWhile (fun c => c = '/')).reverse ++ ['/']

/-- `Config::new` from `src/config.rs`: both prefixes are normalized, the
listen topic is taken verbatim. -/
def Config.new (topicPre discoveryPre discoveryListen : Option (List Char))
    (resyncInterval : Nat) (httpPort : Option Nat) : Config :=
  { topicPre := topicPre.map normalizeTopicPre,
    discoveryPre := discoveryPre.map normalizeTopicPre,
    discoveryListen := discoveryListen,
    resyncInterval := resyncInterval, httpPort := httpPort }

/-- `TopicType` from `src/config.rs`. -/
inductive TopicType where
  | setJson (deviceId : Nat)
  | setAttr (deviceId attributeId : Nat)
  | status (deviceId : Nat)
  | discovery (component : List Char) (deviceId : Nat)
  | discoveryListen
  deriving DecidableEq

def Config.isDiscoveryListenTopic (c : Config) (t : List Char) : Bool :=
  c.discoveryListen = some t

def Config.isDiscoveryTopic (c : Config) (t : List Char) : Bool :=
  match c.discoveryPre with
  | some p => isPre p t
  | none => false

def Config.isInterestingTopic (c : Config) (t : List Char) : Bool :=
  match c.topicPre with
  | some p => isPre p t
  | none => false

/-- One attempt of `DISCOVERY_SUFFIX_REGEX`
(`(?P<component>[^/]+)/wink_(?P<device_id>[0-9]+)/config`) anchored at the
start of `l`.  Both repetitions are forced: `[^/]+` cannot shrink past the
mandatory `/`, `[0-9]+` cannot shrink past the mandatory `/`; so greedy
matching is deterministic here. -/
def matchDiscovery (l : List Char) : Option (List Char × List Char) :=
  let comp := l.takeWhile (fun c => !(decide (c = '/')))
  if comp = [] then none
  else
    let r1 := l.drop comp.length
    if isPre "/wink_".data r1 then
      let r2 := r1.drop 6
      let digs := r2.takeWhile (fun c => (digit? c).isSome)
      if digs = [] then none
      else if isPre "/config".data (r2.drop digs.length) then some (comp, digs)
      else none
    else none

/-- Leftmost search with `DISCOVERY_SUFFIX_REGEX`, as `Regex::captures`. -/
def discoverySearch : List Char → Option (List Char × List Char)
  | [] => none
  | c :: rest =>
    match matchDiscovery (c :: rest) with
    | some r => some r
    | none => discoverySearch rest

/-- Errors of `Config::parse_mqtt_topic` (`NotInterestingTopicError`, the
two `bail!`s, and propagated integer-parse errors). -/
inductive TopicErr where
  | notInteresting
  | invalidDiscovery (raw : List Char)
  | badInternal (raw : List Char)
  | numErr (e : PIErr)
  deriving DecidableEq

/-- The body of `parse_mqtt_topic` for a topic under the main prefix,
operating on the `/`-split path components: trailing `set` with 2–3
components is a set topic (the device id, and for 3 components the
attribute id, parsed as `u64` and truncated `as u32`, i.e. `% 2 ^ 32`);
trailing `status` with 2 components is a status topic; anything else is a
format error. -/
def parseComps (raw : List Char) (comps : List (List Char)) : Except TopicErr TopicType :=
  if comps = [] then .error (.badInternal raw)
  else if comps.getLastD [] = "set".data ∧ 2 ≤ comps.length ∧ comps.length ≤ 3 then
    match (rustParseU 64 (comps.headD [])).mapError TopicErr.numErr with
    | .error e => .error e
    | .ok n =>
      match comps with
      | [_, rest, _] =>
        match (rustParseU 64 rest).mapError TopicErr.numErr with
        | .error e => .error e
        | .ok m => .ok (.setAttr (n % 2 ^ 32) (m % 2 ^ 32))
      | _ => .ok (.setJson (n % 2 ^ 32))
  else if comps.getLastD [] = "status".data ∧ comps.length = 2 then
    match (rustParseU 64 (comps.headD [])).mapError TopicErr.numErr with
    | .error e => .error e
    | .ok n => .ok (.status (n % 2 ^ 32))
  else .error (.badInternal raw)

/-- `Config::parse_mqtt_topic` from `src/config.rs`, in the source's fixed
priority order: discovery-listen exact match, discovery prefix, main
prefix, else the `NotInterestingTopicError` sentinel. -/
def Config.parseMqttTopic (c : Config) (t : List Char) : Except TopicErr TopicType :=
  if c.isDiscoveryListenTopic t then .ok .discoveryListen
  else if c.isDiscoveryTopic t then
    match c.discoveryPre with
    | none => .error (.invalidDiscovery t)
    | some p =>
      match discoverySearch (t.drop p.length) with
      | none => .error (.invalidDiscovery t)
      | some (comp, digs) =>
        match parseNumberish 32 digs with
        | .error e => .error (.numErr e)
        | .ok n => .ok (.discovery comp n)
  else if c.isInterestingTopic t then
    match c.topicPre with
    | none => .error .notInteresting
    | some p => parseComps t (splitSlash (t.drop p.length))
  else .error .notInteresting

/-- `Config::to_topic_string` from `src/config.rs`. -/
def Config.toTopicString (c : Config) : TopicType → Option (List Char)
  | .setJson d => c.topicPre.map (fun p => p ++ natToDec d ++ "/set".data)
  | .setAttr d a =>
    c.topicPre.map (fun p => p ++ natToDec d ++ '/' :: (natToDec a ++ "/set".data))
  | .status d => c.topicPre.map (fun p => p ++ natToDec d ++ "/status".data)
  | .discovery comp d =>
    c.discoveryPre.map (fun p => p ++ comp ++ "/wink_".data ++ natToDec d ++ "/config".data)
  | .discoveryListen => c.discoveryListen

/-- Whether a topic string contains the doubled separator `//`. -/
def noDoubleSlash : List Char → Bool
  | [] => true
  | [_] => true
  | a :: b :: rest => !(a = '/' && b = '/') && noDoubleSlash (b :: rest)

/-- The configuration exercised by the source's own `full_config` test. -/
def testCfg : Config :=
  Config.new (some "topic/prefix/".data) (some "discovery/topic/prefix/".data)
    (some "fire/discovery".data) 10 none

/-- The round-trip property claimed for one topic under a configuration:
it formats to a string, that string parses back to the same topic, and the
string contains no doubled separator. -/
def topicRoundtrips (c : Config) (T : TopicType) : Prop :=
  ∃ s, c.toTopicString T = some s ∧ c.parseMqttTopic s = .ok T ∧ noDoubleSlash s = true

/-! ## Synchronization engine (`src/syncer.rs`) -/

/-- Error type for the write paths of `DeviceSyncer`. -/
inductive SyncErr where
  | notMap
  | noAttr
  | notWritable
  | parseFailed (e : DecodeErr)
  | setFailed
  | queueFull
  deriving DecidableEq

/-- `async_channel::Sender::try_send` on the repoll queue created with
`bounded(10)`: non-blocking, fails when the queue is full. -/
def trySend (q : List Nat) (x : Nat) : Except SyncErr (List Nat) :=
  if q.length < 10 then .ok (q ++ [x]) else .error .queueFull

/-- Lookup in the description-keyed `HashMap` built by
`set_device_attributes_json` (`collect::<HashMap<_, _>>`): on duplicate
descriptions the later entry wins. -/
def hashGet (attrs : List DeviceAttribute) (k : List Char) : Option DeviceAttribute :=
  (attrs.filter (fun a => a.description = k)).getLast?

/-- The key loop of `DeviceSyncer::set_device_attributes_json`: unknown
keys, read-only attributes and per-key JSON decode failures are skipped
(`continue`), successful decodes are applied through the controller
(`setf`), whose error propagates.  Returns the applied
`(attributeId, value)` pairs in order. -/
def setAttrsJsonGo (setf : Nat → Nat → AttributeValue → Except SyncErr Unit) (did : Nat)
    (attrs : List DeviceAttribute) :
    List (List Char × Json) → Except SyncErr (List (Nat × AttributeValue))
  | [] => .ok []
  | (k, v) :: rest =>
    match hashGet attrs k with
    | none => setAttrsJsonGo setf did attrs rest
    | some a =>
      if a.supportsWrite then
        match a.attributeType.parseJson v with
        | .error _ => setAttrsJsonGo setf did attrs rest
        | .ok val =>
          match setf did a.id val with
          | .error e => .error e
          | .ok _ =>
            match setAttrsJsonGo setf did attrs rest with
            | .error e => .error e
            | .ok applied => .ok ((a.id, val) :: applied)
      else setAttrsJsonGo setf did attrs rest

/-- `DeviceSyncer::set_device_attributes_json` from `src/syncer.rs`,
parameterized by the controller's `set` (`setf`) and given the `describe`
result `dev` for the device; the payload must be a JSON object, and after
the key loop the device id is pushed on the repoll queue with `try_send?`.
(UTF-8 and JSON text decoding are serde; the payload is modelled as the
parsed `serde_json::Value`.) -/
def setDeviceAttributesJson (setf : Nat → Nat → AttributeValue → Except SyncErr Unit)
    (did : Nat) (dev : LongDevice) (payload : Json) (q : List Nat) :
    Except SyncErr (List (Nat × AttributeValue) × List Nat) :=
  match payload with
  | .obj kvs =>
    match setAttrsJsonGo setf did dev.attributes kvs with
    | .error e => .error e
    | .ok applied =>
      match trySend q did with
      | .error e => .error e
      | .ok q' => .ok (applied, q')
  | _ => .error .notMap

/-- `DeviceSyncer::set_device_attribute_by_id` from `src/syncer.rs`:
find the attribute by id, require writability, decode the payload text by
the attribute's declared type, apply through the controller, then push the
device id on the repoll queue with `try_send?`. -/
def setDeviceAttributeById (setf : Nat → Nat → AttributeValue → Except SyncErr Unit)
    (did aid : Nat) (dev : LongDevice) (payload : List Char) (q : List Nat) :
    Except SyncErr (AttributeValue × List Nat) :=
  match dev.attributes.find? (fun x => x.id = aid) with
  | none => .error .noAttr
  | some a =>
    if !a.supportsWrite then .error .notWritable
    else
      match a.attributeType.parseText payload with
      | .error e => .error (.parseFailed e)
      | .ok v =>
        match setf did aid v with
        | .error e => .error e
        | .ok _ =>
          match trySend q did with
          | .error e => .error e
          | .ok q' => .ok (v, q')

/-- One map insertion: overwrite an existing binding of the key, else
append. -/
def mapInsert (m : List (List Char × Json)) (kv : List Char × Json) :
    List (List Char × Json) :=
  if m.any (fun p => p.1 = kv.1) then m.map (fun p => if p.1 = kv.1 then kv else p)
  else m ++ [kv]

/-- `collect::<serde_json::Map<_, _>>`: later values overwrite earlier ones
with the same key (the serde map additionally orders its keys, which does
not affect lookups and is not modelled). -/
def collectMap (l : List (List Char × Json)) : List (List Char × Json) :=
  l.foldl mapInsert []

/-- Whether one payload entry of a whole-device JSON write either applies
cleanly through `setf` or is skipped by the key loop (unknown key,
read-only attribute, or JSON decode failure). -/
def keyOkB (setf : Nat → Nat → AttributeValue → Except SyncErr Unit) (did : Nat)
    (attrs : List DeviceAttribute) (kv : List Char × Json) : Bool :=
  match hashGet attrs kv.1 with
  | none => true
  | some a =>
    if a.supportsWrite then
      match a.attributeType.parseJson kv.2 with
      | .error _ => true
      | .ok val => decide (setf did a.id val = .ok ())
    else true

/-- The `(attributeId, value)` pair one payload entry applies, if any. -/
def appliedOf (attrs : List DeviceAttribute) (kv : List Char × Json) :
    Option (Nat × AttributeValue) :=
  match hashGet attrs kv.1 with
  | none => none
  | some a =>
    if a.supportsWrite then
      match a.attributeType.parseJson kv.2 with
      | .error _ => none
      | .ok val => some (a.id, val)
    else none

/-- Map lookup. -/
def lookupKV (m : List (List Char × Json)) (k : List Char) : Option Json :=
  (m.find? (fun p => p.1 = k)).map (fun p => p.2)

/-- The publish request built by `DeviceSyncer::poll_device_` from the
`describe` result `dev`: topic is the device's status topic, the payload
maps each attribute's description to `setting_value.or(current_value)`
encoded to JSON, and `retain` (the final `Bool`) is set to `true`. -/
def pollDevicePublish (c : Config) (dev : LongDevice) :
    Option (List Char × List (List Char × Json) × Bool) :=
  let attrs :=
    collectMap (dev.attributes.map (fun x => (x.description, (x.settingValue.or x.currentValue).toJson)))
  (c.toTopicString (.status dev.id)).map (fun topic => (topic, attrs, true))

/-! ## Fake controller (`src/controller.rs`) -/

/-- The in-memory `attr_values` map of `FakeController`. -/
abbrev FakeState := List ((Nat × Nat) × AttributeValue)

/-- `HashMap::get`. -/
def hmGet (m : FakeState) (k : Nat × Nat) : Option AttributeValue :=
  (m.find? (fun p => p.1 = k)).map (fun p => p.2)

/-- `HashMap::insert`. -/
def hmInsert (m : FakeState) (k : Nat × Nat) (v : AttributeValue) : FakeState :=
  if m.any (fun p => p.1 = k) then m.map (fun p => if p.1 = k then (k, v) else p)
  else m ++ [(k, v)]

/-- Errors of the fake controller. -/
inductive FakeErr where
  | notFound (id : Nat)
  | invalidSet (mid aid : Nat)
  deriving DecidableEq

/-- `FakeController::describe` from `src/controller.rs`, canned device
catalog included verbatim. -/
def fakeDescribe (st : FakeState) (mid : Nat) : Except FakeErr LongDevice :=
  if mid = 2 then
    .ok { gangId := some 0x03, genericDeviceType := some 0x11, specificDeviceType := some 0x08,
          manufacturerId := some 0x63, productType := some 0x4944, productNumber := some 0x3131,
          id := mid, status := "ONLINE".data, name := "Bedroom Fan".data,
          attributes := [
            { id := 1, description := "GenericValue".data, attributeType := .uint8,
              supportsWrite := true, supportsRead := true,
              currentValue := (hmGet st (mid, 1)).getD (.uint8 0),
              settingValue := (hmGet st (mid, 1)).getD (.uint8 0) },
            { id := 3, description := "Level".data, attributeType := .uint8,
              supportsWrite := true, supportsRead := true,
              currentValue := (hmGet st (mid, 3)).getD (.uint8 0),
              settingValue := (hmGet st (mid, 3)).getD (.uint8 0) },
            { id := 4, description := "Up_Down".data, attributeType := .bool,
              supportsWrite := true, supportsRead := false,
              currentValue := .noValue, settingValue := .noValue },
            { id := 5, description := "StopMovement".data, attributeType := .bool,
              supportsWrite := true, supportsRead := false,
              currentValue := .noValue, settingValue := .noValue }] }
  else if mid = 4 then
    .ok { gangId := none, genericDeviceType := none, specificDeviceType := none,
          manufacturerId := none, productType := none, productNumber := none,
          id := mid, status := [], name := "Bedroom Light".data,
          attributes := [
            { id := 1, description := "On_Off".data, attributeType := .bool,
              supportsWrite := true, supportsRead := true,
              currentValue := (hmGet st (mid, 1)).getD (.bool false),
              settingValue := (hmGet st (mid, 1)).getD (.bool false) }] }
  else .error (.notFound mid)

/-- `FakeController::set` from `src/controller.rs`: the only validation is
`master_id ∈ {2, 4}`, `1 ≤ attribute_id ≤ 5`, and the value is not
`NoValue`. -/
def fakeSet (st : FakeState) (mid aid : Nat) (v : AttributeValue) : Except FakeErr FakeState :=
  if (mid ≠ 2 ∧ mid ≠ 4) ∨ aid < 1 ∨ aid > 5 ∨ v = .noValue then .error (.invalidSet mid aid)
  else .ok (hmInsert st (mid, aid) v)

/-- The current/setting values of attribute `aid` in a `describe` result. -/
def describedValue (r : Except FakeErr LongDevice) (aid : Nat) :
    Option (AttributeValue × AttributeValue) :=
  match r with
  | .ok d => (d.attributes.find? (fun a => a.id = aid)).map (fun a => (a.currentValue, a.settingValue))
  | .error _ => none

/-- A minimal device with one writable boolean attribute, used to exercise
the single-attribute write path at concrete inputs. -/
def demoDevice : LongDevice :=
  { gangId := none, genericDeviceType := none, specificDeviceType := none,
    manufacturerId := none, productType := none, productNumber := none,
    id := 4, status := [], name := [],
    attributes := [
      { id := 1, description := "On_Off".data, attributeType := .bool,
        supportsWrite := true, supportsRead := true,
        currentValue := .noValue, settingValue := .noValue }] }

/-- Trim-invariance of the payload of a string value (non-string values are
unconstrained); the side condition under which the textual round-trip law
can hold, since `AttributeType::parse` trims its input. -/
def trimInv : AttributeValue → Bool
  | .str s => decide (rustTrim s = s)
  | _ => true

/-! ## Theorems -/

theorem digit?_ofNat (d : Nat) (h : d < 10) : digit? (Char.ofNat (48 + d)) = some d := by
  interval_cases d <;> decide

theorem digitsVal?_append (dig : Char → Option Nat) (b : Nat) (l1 l2 : List Char) :
    ∀ acc, digitsVal? dig b (l1 ++ l2) acc
      = (digitsVal? dig b l1 acc).bind (digitsVal? dig b l2) := by
  induction l1 with
  | nil => intro acc; rfl
  | cons c l1 ih =>
    intro acc
    simp only [List.cons_append, digitsVal?]
    cases dig c with
    | none => rfl
    | some d => exact ih (b * acc + d)

theorem decAux_val (fuel : Nat) : ∀ n acc, n ≤ fuel →
    digitsVal? digit? 10 ((decAux fuel n).reverse) acc
      = some (acc * 10 ^ (decAux fuel n).length + n) := by
  induction fuel with
  | zero =>
    intro n acc h
    have : n = 0 := Nat.le_zero.mp h
    subst this
    simp [decAux, digitsVal?]
  | succ fuel ih =>
    intro n acc h
    by_cases hz : n = 0
    · subst hz; simp [decAux, digitsVal?]
    · have hrec : n / 10 ≤ fuel := by omega
      simp only [decAux, if_neg hz, List.reverse_cons,
        digitsVal?_append, ih (n / 10) acc hrec, Option.bind_some]
      simp only [digitsVal?, digit?_ofNat (n % 10) (by omega)]
      simp only [List.length_cons, pow_succ, ← mul_assoc, Option.some_bind]
      congr 1
      generalize acc * 10 ^ (decAux fuel (n / 10)).length = X
      omega

theorem natToDec_parse (n : Nat) : digitsVal? digit? 10 (natToDec n) 0 = some n := by
  by_cases hz : n = 0
  · subst hz; decide
  · simp only [natToDec, if_neg hz, decAux_val (n + 1) n 0 (Nat.le_succ n), Nat.zero_mul,
      Nat.zero_add]

theorem natToDec_ne_nil (n : Nat) : natToDec n ≠ [] := by
  by_cases hz : n = 0
  · subst hz; decide
  · simp only [natToDec, if_neg hz, decAux, ne_eq, List.reverse_eq_nil_iff]
    simp

theorem decAux_digit (fuel : Nat) : ∀ m c, c ∈ decAux fuel m → (digit? c).isSome = true := by
  induction fuel with
  | zero => intro m c h; simp [decAux] at h
  | succ fuel ih =>
    intro m c h
    by_cases hz : m = 0
    · subst hz; simp [decAux] at h
    · simp only [decAux, if_neg hz, List.mem_cons] at h
      rcases h with h | h
      · subst h; rw [digit?_ofNat (m % 10) (by omega)]; rfl
      · exact ih (m / 10) c h

theorem natToDec_digit (n : Nat) : ∀ c ∈ natToDec n, (digit? c).isSome = true := by
  intro c h
  by_cases hz : n = 0
  · subst hz
    simp only [natToDec, if_true, List.mem_singleton, reduceIte] at h
    subst h; decide
  · simp only [natToDec, if_neg hz, List.mem_reverse] at h
    exact decAux_digit (n + 1) n c h

theorem not_mem_natToDec (c : Char) (hc : digit? c = none) (n : Nat) : c ∉ natToDec n := by
  intro h
  have := natToDec_digit n c h
  rw [hc] at this
  cases this

theorem head_digit_ne (c : Char) (cs : List Char) (n : Nat) (hn : natToDec n = c :: cs)
    (x : Char) (hx : digit? x = none) : c ≠ x := by
  intro h
  subst h
  exact not_mem_natToDec c hx n (hn ▸ List.mem_cons_self c cs)

theorem dropWhile_eq_self_of_head (p : Char → Bool) (l : List Char)
    (h : ∀ c ∈ l, p c = false) : l.dropWhile p = l := by
  cases l with
  | nil => rfl
  | cons c cs =>
    simp only [List.dropWhile_cons, h c (List.mem_cons_self c cs), Bool.false_eq_true,
      if_false]

theorem rustTrim_eq_self (l : List Char) (h : ∀ c ∈ l, rustIsWhitespace c = false) :
    rustTrim l = l := by
  unfold rustTrim
  rw [dropWhile_eq_self_of_head _ _ h,
    dropWhile_eq_self_of_head _ _ (fun c hc => h c (List.mem_reverse.mp hc)),
    List.reverse_reverse]

theorem ws_false_of_digit (c : Char) (h : (digit? c).isSome = true) :
    rustIsWhitespace c = false := by
  by_contra hw
  have hw' : rustIsWhitespace c = true := by
    cases hcc : rustIsWhitespace c
    · exact absurd hcc hw
    · rfl
  simp only [rustIsWhitespace, Bool.or_eq_true, decide_eq_true_eq] at hw'
  rcases hw' with ((((h1 | h1) | h1) | h1) | h1) | h1 <;> (subst h1; simp [digit?] at h)

theorem rustTrim_natToDec (n : Nat) : rustTrim (natToDec n) = natToDec n :=
  rustTrim_eq_self _ (fun c hc => ws_false_of_digit c (natToDec_digit n c hc))

theorem digitsPart_natToDec (w n : Nat) (h : n < 2 ^ w) :
    digitsPart digit? 10 w (natToDec n) = .ok n := by
  unfold digitsPart
  rw [if_neg (natToDec_ne_nil n), natToDec_parse n]
  simp [h]

theorem rustParseU_natToDec (w n : Nat) (h : n < 2 ^ w) :
    rustParseU w (natToDec n) = .ok n := by
  obtain ⟨c, cs, hcons⟩ := List.exists_cons_of_ne_nil (natToDec_ne_nil n)
  unfold rustParseU
  rw [hcons, if_neg (by simp), List.headD_cons,
    if_neg (head_digit_ne c cs n hcons '+' (by decide)), ← hcons]
  exact digitsPart_natToDec w n h

theorem isPre_append_self (p r : List Char) : isPre p (p ++ r) = true := by
  induction p with
  | nil => rfl
  | cons c cs ih => simp [isPre, ih]

theorem splitSlash_ne_nil (l : List Char) : splitSlash l ≠ [] := by
  cases l with
  | nil => simp [splitSlash]
  | cons c rest =>
    simp only [splitSlash]
    cases splitSlash rest with
    | nil => simp
    | cons h t =>
      by_cases hc : c = '/' <;> simp [hc]

theorem splitSlash_append (l r : List Char) (h : '/' ∉ l) :
    splitSlash (l ++ '/' :: r) = l :: splitSlash r := by
  induction l with
  | nil =>
    simp only [List.nil_append, splitSlash]
    obtain ⟨h', t', ht⟩ := List.exists_cons_of_ne_nil (splitSlash_ne_nil r)
    rw [ht]
    simp
  | cons c cs ih =>
    have hc : c ≠ '/' := fun hcc => h (hcc ▸ List.mem_cons_self c cs)
    have hcs : '/' ∉ cs := fun hm => h (List.mem_cons_of_mem c hm)
    have ih' : splitSlash (cs.append ('/' :: r)) = cs :: splitSlash r := ih hcs
    simp only [List.cons_append, splitSlash, ih']
    exact if_neg hc

theorem asU64_ofNat (n : Nat) (h : n < 2 ^ 64) : asU64 (n : Int) = .ok n := by
  show asU64 (Int.ofNat n) = .ok n
  simp only [asU64]
  rw [if_pos (by omega : n < 2 ^ 64)]

theorem tryIntoW_ok (w n : Nat) (h : n < 2 ^ w) : tryIntoW w n = .ok n := by
  simp [tryIntoW, h]

theorem hmGet_hmInsert (m : FakeState) (k : Nat × Nat) (v : AttributeValue) :
    hmGet (hmInsert m k v) k = some v := by
  unfold hmGet hmInsert
  by_cases h : m.any (fun p => p.1 = k)
  · rw [if_pos h]
    induction m with
    | nil => simp at h
    | cons p m ih =>
      by_cases hp : p.1 = k
      · simp [hp]
      · simp only [List.any_cons, Bool.or_eq_true, decide_eq_true_eq] at h
        rcases h with h | h
        · exact absurd h hp
        · simp only [List.map_cons, if_neg hp]
          rw [List.find?_cons_of_neg _ (by simpa using hp)]
          exact ih (by simpa using h)
  · rw [if_neg h]
    induction m with
    | nil => simp
    | cons p m ih =>
      simp only [List.any_cons, Bool.or_eq_true, decide_eq_true_eq, not_or] at h
      simp only [List.cons_append]
      rw [List.find?_cons_of_neg _ (by simpa using h.1)]
      exact ih (by simpa using h.2)

/-- Claim C5: `parse_numberish` parses `0x`-prefixed input (leading zeros
stripped) as base-16 and everything else as base-10, through a 64-bit
value, and succeeds exactly when that 64-bit stage succeeds with a value
that fits in the target width; the four concrete examples of the spec
hold, with `parse::<u8>("256")` failing with a range error. -/
theorem c5_parse_numberish :
    parseNumberish 8 "0x0003".data = .ok 3 ∧
    parseNumberish 16 "0x11".data = .ok 17 ∧
    parseNumberish 32 "4294967295".data = .ok 4294967295 ∧
    parseNumberish 8 "256".data = .error .posOverflow ∧
    ∀ w s, (parseNumberish w s).isOk = true ↔
      ∃ v, parseNumberishU64 s = .ok v ∧ v < 2 ^ w := by
  refine ⟨by decide, by decide, by decide, by decide, ?_⟩
  intro w s
  unfold parseNumberish
  cases h : parseNumberishU64 s with
  | error e => simp [Except.isOk, Except.toBool]
  | ok v =>
    by_cases hv : v < 2 ^ w
    · simp [hv, Except.isOk, Except.toBool]
    · simp [hv, Except.isOk, Except.toBool]

/-- Claim C7: a row value field decodes as: empty field is `NoValue`; a
`BOOL` field accepts exactly `TRUE` and `FALSE` and errors on every other
non-empty string; numeric fields parse plain decimal (every decimal
rendering of an in-range value round-trips) and reject `0x…` hex input;
`STRING` fields are taken verbatim; and `describe`'s row parser feeds the
trimmed GET and SET fields independently through this decoder. -/
theorem c7_parse_attr_value :
    (∀ t, parseAttrValue t [] = .ok .noValue) ∧
    parseAttrValue .bool "TRUE".data = .ok (.bool true) ∧
    parseAttrValue .bool "FALSE".data = .ok (.bool false) ∧
    (∀ v, v ≠ [] → v ≠ "TRUE".data → v ≠ "FALSE".data →
      parseAttrValue .bool v = .error (.badVal v)) ∧
    (∀ n, n < 2 ^ 8 → parseAttrValue .uint8 (natToDec n) = .ok (.uint8 n)) ∧
    (∀ n, n < 2 ^ 16 → parseAttrValue .uint16 (natToDec n) = .ok (.uint16 n)) ∧
    (∀ n, n < 2 ^ 32 → parseAttrValue .uint32 (natToDec n) = .ok (.uint32 n)) ∧
    (∀ n, n < 2 ^ 64 → parseAttrValue .uint64 (natToDec n) = .ok (.uint64 n)) ∧
    (∀ r, (parseAttrValue .uint8 ('0' :: 'x' :: r)).isOk = false) ∧
    (∀ r, (parseAttrValue .uint16 ('0' :: 'x' :: r)).isOk = false) ∧
    (∀ r, (parseAttrValue .uint32 ('0' :: 'x' :: r)).isOk = false) ∧
    (∀ r, (parseAttrValue .uint64 ('0' :: 'x' :: r)).isOk = false) ∧
    (∀ s, s ≠ [] → parseAttrValue .string s = .ok (.str s)) ∧
    (∀ (r : AttrRow) t i cur setv,
      parseTypeTok r.typeStr = .ok t →
      rustParseU 32 r.idStr = .ok i →
      parseAttrValue t (rustTrim r.getStr) = .ok cur →
      parseAttrValue t (rustTrim r.setStr) = .ok setv →
      parseRow r = .ok { id := i, description := rustTrim r.descStr, attributeType := t,
                         supportsWrite := r.modeStr.contains 'W',
                         supportsRead := r.modeStr.contains 'R',
                         currentValue := cur, settingValue := setv }) := by
  refine ⟨fun t => by cases t <;> rfl, by decide, by decide, ?_, ?_, ?_, ?_, ?_,
    fun r => rfl, fun r => rfl, fun r => rfl, fun r => rfl, ?_, ?_⟩
  · intro v h1 h2 h3
    simp [parseAttrValue, h1, h2, h3]
  · intro n h
    simp [parseAttrValue, natToDec_ne_nil n, rustParseU_natToDec 8 n h, Except.map,
      Except.mapError]
  · intro n h
    simp [parseAttrValue, natToDec_ne_nil n, rustParseU_natToDec 16 n h, Except.map,
      Except.mapError]
  · intro n h
    simp [parseAttrValue, natToDec_ne_nil n, rustParseU_natToDec 32 n h, Except.map,
      Except.mapError]
  · intro n h
    simp [parseAttrValue, natToDec_ne_nil n, rustParseU_natToDec 64 n h, Except.map,
      Except.mapError]
  · intro s h
    simp [parseAttrValue, h]
  · intro r t i cur setv ht hi hcur hset
    simp only [parseRow, ht, hi, hcur, hset, Except.mapError]

/-- Claim C7 witness: concrete instances of the hypothesis-bearing
conjuncts of `c7_parse_attr_value`. -/
theorem c7_witness :
    parseAttrValue .bool "yes".data = .error (.badVal "yes".data) ∧
    parseAttrValue .uint16 (natToDec 300) = .ok (.uint16 300) ∧
    parseAttrValue .string "ON".data = .ok (.str "ON".data) ∧
    parseRow ⟨"3".data, " Level ".data, "UINT8".data, "R/W".data, " 42 ".data, "".data⟩
      = .ok { id := 3, description := "Level".data, attributeType := .uint8,
              supportsWrite := true, supportsRead := true,
              currentValue := .uint8 42, settingValue := .noValue } := by
  refine ⟨c7_parse_attr_value.2.2.2.1 _ (by decide) (by decide) (by decide),
    c7_parse_attr_value.2.2.2.2.2.1 300 (by decide),
    c7_parse_attr_value.2.2.2.2.2.2.2.2.2.2.2.2.1 _ (by decide), ?_⟩
  have := c7_parse_attr_value.2.2.2.2.2.2.2.2.2.2.2.2.2
    ⟨"3".data, " Level ".data, "UINT8".data, "R/W".data, " 42 ".data, "".data⟩
    .uint8 3 (.uint8 42) .noValue (by decide) (by decide) (by decide) (by decide)
  simpa using this

theorem parseJsonNum8 (n : Nat) (hn : n < 2 ^ 8) :
    AttributeType.parseJson .uint8 (Json.num (n : Int)) = .ok (.uint8 n) := by
  have h1 : asU64 (n : Int) = .ok n := asU64_ofNat n (by omega)
  have h2 : tryIntoW 8 n = .ok n := tryIntoW_ok 8 n hn
  calc AttributeType.parseJson .uint8 (Json.num (n : Int))
      = (match asU64 (n : Int) with
         | .error e => .error e
         | .ok u =>
           match tryIntoW 8 u with
           | .error e => .error e
           | .ok u => Except.ok (AttributeValue.uint8 u)) := rfl
    _ = .ok (.uint8 n) := by simp only [h1, h2]

theorem parseJsonNum16 (n : Nat) (hn : n < 2 ^ 16) :
    AttributeType.parseJson .uint16 (Json.num (n : Int)) = .ok (.uint16 n) := by
  have h1 : asU64 (n : Int) = .ok n := asU64_ofNat n (by omega)
  have h2 : tryIntoW 16 n = .ok n := tryIntoW_ok 16 n hn
  calc AttributeType.parseJson .uint16 (Json.num (n : Int))
      = (match asU64 (n : Int) with
         | .error e => .error e
         | .ok u =>
           match tryIntoW 16 u with
           | .error e => .error e
           | .ok u => Except.ok (AttributeValue.uint16 u)) := rfl
    _ = .ok (.uint16 n) := by simp only [h1, h2]

theorem parseJsonNum32 (n : Nat) (hn : n < 2 ^ 32) :
    AttributeType.parseJson .uint32 (Json.num (n : Int)) = .ok (.uint32 n) := by
  have h1 : asU64 (n : Int) = .ok n := asU64_ofNat n (by omega)
  have h2 : tryIntoW 32 n = .ok n := tryIntoW_ok 32 n hn
  calc AttributeType.parseJson .uint32 (Json.num (n : Int))
      = (match asU64 (n : Int) with
         | .error e => .error e
         | .ok u =>
           match tryIntoW 32 u with
           | .error e => .error e
           | .ok u => Except.ok (AttributeValue.uint32 u)) := rfl
    _ = .ok (.uint32 n) := by simp only [h1, h2]

theorem parseJsonNum64 (n : Nat) (hn : n < 2 ^ 64) :
    AttributeType.parseJson .uint64 (Json.num (n : Int)) = .ok (.uint64 n) := by
  have h1 : asU64 (n : Int) = .ok n := asU64_ofNat n hn
  calc AttributeType.parseJson .uint64 (Json.num (n : Int))
      = (match asU64 (n : Int) with
         | .error e => .error e
         | .ok u => Except.ok (AttributeValue.uint64 u)) := rfl
    _ = .ok (.uint64 n) := by simp only [h1]

/-- Claim C1 counterexample: the textual round-trip fails for a `String`
value with leading whitespace, because `AttributeType::parse` trims its
input before decoding. -/
theorem c1_counterexample :
    AttributeValue.attributeType (.str " hi".data) = some .string ∧
    AttributeType.parseText .string ((valueToText (.str " hi".data)).getD []) =
      .ok (.str "hi".data) ∧
    AttributeType.parseText .string ((valueToText (.str " hi".data)).getD []) ≠
      .ok (.str " hi".data) := by
  refine ⟨by decide, by decide, by decide⟩

/-- Claim C1 (amended): for every supported type `t` and well-formed value
`v` tagged `t`, the JSON round-trip always holds, and the textual
round-trip (through the encoding used by `set`) holds whenever `v` is not
a string altered by trimming; `NoValue` encodes to JSON `null` and is
rejected by `set` as textual input. -/
theorem c1_roundtrip :
    (∀ t v, AttributeValue.wfb v = true → AttributeValue.attributeType v = some t →
      AttributeType.parseJson t (AttributeValue.toJson v) = .ok v ∧
      (trimInv v = true →
        AttributeType.parseText t ((valueToText v).getD []) = .ok v)) ∧
    AttributeValue.toJson .noValue = .null ∧
    valueToText .noValue = none := by
  refine ⟨?_, rfl, rfl⟩
  intro t v hwf htag
  cases v with
  | noValue => cases htag
  | bool b =>
    cases htag
    cases b <;> exact ⟨by decide, fun _ => by decide⟩
  | str s =>
    cases htag
    refine ⟨rfl, fun ht => ?_⟩
    have hts : rustTrim s = s := of_decide_eq_true ht
    simp only [valueToText, Option.getD_some, AttributeType.parseText, hts]
  | uint8 n =>
    cases htag
    have hn : n < 2 ^ 8 := of_decide_eq_true hwf
    constructor
    · exact parseJsonNum8 n hn
    · intro _
      simp only [valueToText, Option.getD_some, AttributeType.parseText,
        rustTrim_natToDec n, rustParseU_natToDec 8 n hn, Except.map, Except.mapError]
  | uint16 n =>
    cases htag
    have hn : n < 2 ^ 16 := of_decide_eq_true hwf
    constructor
    · exact parseJsonNum16 n hn
    · intro _
      simp only [valueToText, Option.getD_some, AttributeType.parseText,
        rustTrim_natToDec n, rustParseU_natToDec 16 n hn, Except.map, Except.mapError]
  | uint32 n =>
    cases htag
    have hn : n < 2 ^ 32 := of_decide_eq_true hwf
    constructor
    · exact parseJsonNum32 n hn
    · intro _
      simp only [valueToText, Option.getD_some, AttributeType.parseText,
        rustTrim_natToDec n, rustParseU_natToDec 32 n hn, Except.map, Except.mapError]
  | uint64 n =>
    cases htag
    have hn : n < 2 ^ 64 := of_decide_eq_true hwf
    constructor
    · exact parseJsonNum64 n hn
    · intro _
      simp only [valueToText, Option.getD_some, AttributeType.parseText,
        rustTrim_natToDec n, rustParseU_natToDec 64 n hn, Except.map, Except.mapError]

/-- Claim C1 witness: the round-trip laws instantiated at a concrete
`UInt8` value and a concrete trimmed string. -/
theorem c1_witness :
    AttributeType.parseJson .uint8 (AttributeValue.toJson (.uint8 200)) = .ok (.uint8 200) ∧
    AttributeType.parseText .uint8 ((valueToText (.uint8 200)).getD []) = .ok (.uint8 200) ∧
    AttributeType.parseText .string ((valueToText (.str "hi".data)).getD []) =
      .ok (.str "hi".data) := by
  refine ⟨(c1_roundtrip.1 .uint8 (.uint8 200) (by decide) (by decide)).1,
    (c1_roundtrip.1 .uint8 (.uint8 200) (by decide) (by decide)).2 (by decide),
    (c1_roundtrip.1 .string (.str "hi".data) (by decide) (by decide)).2 (by decide)⟩

/-- Claim C8 counterexample: device 4 of the fake controller has exactly
one attribute (id 1), yet `set(4, 3, Bool(true))` succeeds — `set` does not
validate attribute existence, only the range `1..=5`. -/
theorem c8_counterexample :
    (fakeDescribe [] 4).map (fun d => d.attributes.map (fun a => a.id)) = .ok [1] ∧
    (fakeSet [] 4 3 (.bool true)).isOk = true := by
  exact ⟨by decide, by decide⟩

/-- Claim C8 (amended): `FakeController::set` succeeds exactly when the
device id is 2 or 4, the attribute id is in `1..=5`, and the value is not
`NoValue` (attribute existence is not checked); a stored value is returned
as both `current_value` and `setting_value` by subsequent `describe` for
the map-backed attributes (device 2 attributes 1 and 3, device 4 attribute
1), while attributes 4 and 5 of device 2 always report `NoValue`. -/
theorem c8_fake_controller :
    (∀ st mid aid v, (fakeSet st mid aid v).isOk = true ↔
      ((mid = 2 ∨ mid = 4) ∧ 1 ≤ aid ∧ aid ≤ 5 ∧ v ≠ .noValue)) ∧
    (∀ st v st', fakeSet st 2 1 v = .ok st' →
      describedValue (fakeDescribe st' 2) 1 = some (v, v)) ∧
    (∀ st v st', fakeSet st 2 3 v = .ok st' →
      describedValue (fakeDescribe st' 2) 3 = some (v, v)) ∧
    (∀ st v st', fakeSet st 4 1 v = .ok st' →
      describedValue (fakeDescribe st' 4) 1 = some (v, v)) ∧
    (∀ st, describedValue (fakeDescribe st 2) 4 = some (.noValue, .noValue) ∧
      describedValue (fakeDescribe st 2) 5 = some (.noValue, .noValue)) := by
  refine ⟨?_, ?_, ?_, ?_, ?_⟩
  · intro st mid aid v
    unfold fakeSet
    by_cases h : ((mid ≠ 2 ∧ mid ≠ 4) ∨ aid < 1 ∨ aid > 5 ∨ v = .noValue)
    · rw [if_pos h]
      simp only [Except.isOk, Except.toBool, Bool.false_eq_true, false_iff]
      rintro ⟨hm, h1, h2, hv⟩
      rcases h with ⟨ha, hb⟩ | h | h | h
      · rcases hm with h' | h'
        · exact ha h'
        · exact hb h'
      · omega
      · omega
      · exact hv h
    · rw [if_neg h]
      push_neg at h
      obtain ⟨h1, h2, h3, h4⟩ := h
      simp only [Except.isOk, Except.toBool, true_iff, eq_self_iff_true]
      refine ⟨?_, by omega, by omega, h4⟩
      by_cases hm : mid = 2
      · exact Or.inl hm
      · exact Or.inr (h1 hm)
  · intro st v st' h
    by_cases hv : v = .noValue
    · subst hv; simp [fakeSet] at h
    · unfold fakeSet at h
      rw [if_neg (by simp [hv])] at h
      injection h with h
      subst h
      simp [describedValue, fakeDescribe, List.find?, hmGet_hmInsert]
  · intro st v st' h
    by_cases hv : v = .noValue
    · subst hv; simp [fakeSet] at h
    · unfold fakeSet at h
      rw [if_neg (by simp [hv])] at h
      injection h with h
      subst h
      simp [describedValue, fakeDescribe, List.find?, hmGet_hmInsert]
  · intro st v st' h
    by_cases hv : v = .noValue
    · subst hv; simp [fakeSet] at h
    · unfold fakeSet at h
      rw [if_neg (by simp [hv])] at h
      injection h with h
      subst h
      simp [describedValue, fakeDescribe, List.find?, hmGet_hmInsert]
  · intro st
    constructor <;> simp [describedValue, fakeDescribe, List.find?]

/-- Claim C8 witness: the amended characterization at concrete inputs. -/
theorem c8_witness :
    (fakeSet [] 2 9 (.uint8 1)).isOk = false ∧
    describedValue (fakeDescribe (hmInsert [] (2, 3) (.uint8 55)) 2) 3
      = some (.uint8 55, .uint8 55) := by
  constructor
  · have h := (c8_fake_controller.1 [] 2 9 (.uint8 1))
    by_cases hh : (fakeSet [] 2 9 (.uint8 1)).isOk = true
    · exact absurd (h.mp hh) (by decide)
    · simpa using hh
  · exact c8_fake_controller.2.2.1 [] (.uint8 55) _ (by decide)

/-- Claim C9 counterexample: an inbound single-attribute write on a full
repoll queue is not silently dropped: `try_send(device_id)?` propagates
the full-queue error and the handler returns it to its caller. -/
theorem c9_counterexample :
    setDeviceAttributeById (fun _ _ _ => .ok ()) 4 1
      demoDevice
      "TRUE".data [0, 0, 0, 0, 0, 0, 0, 0, 0, 0]
      = .error .queueFull := by decide

/-- Claim C9 (amended): the inbound write handler pushes the repoll signal
with the non-blocking `try_send`, but a full queue is not a silent drop:
the error propagates and the handler fails even though the attribute write
has already been applied; with room in the queue the device id is
appended. -/
theorem c9_try_send :
    ∀ setf did aid (dev : LongDevice) payload q a v,
      dev.attributes.find? (fun x => x.id = aid) = some a →
      a.supportsWrite = true →
      a.attributeType.parseText payload = .ok v →
      setf did aid v = .ok () →
      (10 ≤ q.length →
        setDeviceAttributeById setf did aid dev payload q = .error .queueFull) ∧
      (q.length < 10 →
        setDeviceAttributeById setf did aid dev payload q = .ok (v, q ++ [did])) := by
  intro setf did aid dev payload q a v hfind hw hparse hset
  constructor
  · intro h10
    simp [setDeviceAttributeById, hfind, hw, hparse, hset, trySend, Nat.not_lt.mpr h10]
  · intro hlt
    simp [setDeviceAttributeById, hfind, hw, hparse, hset, trySend, hlt]

/-- Claim C9 witness: with room in the queue the same write succeeds and
appends the device id. -/
theorem c9_witness :
    setDeviceAttributeById (fun _ _ _ => .ok ()) 4 1
      demoDevice
      "TRUE".data []
      = .ok (.bool true, [4]) := by
  exact (c9_try_send (fun _ _ _ => .ok ()) 4 1 demoDevice "TRUE".data []
    ⟨1, "On_Off".data, .bool, true, true, .noValue, .noValue⟩ (.bool true)
    (by decide) (by decide) (by decide) rfl).2 (by decide)

theorem setAttrsJsonGo_ok (setf : Nat → Nat → AttributeValue → Except SyncErr Unit)
    (did : Nat) (attrs : List DeviceAttribute) :
    ∀ kvs, kvs.all (keyOkB setf did attrs) = true →
      setAttrsJsonGo setf did attrs kvs = .ok (kvs.filterMap (appliedOf attrs)) := by
  intro kvs
  induction kvs with
  | nil => intro _; rfl
  | cons kv rest ih =>
    intro hall
    obtain ⟨k, v⟩ := kv
    rw [List.all_cons, Bool.and_eq_true] at hall
    obtain ⟨hk, hrest⟩ := hall
    have ih' := ih hrest
    cases hg : hashGet attrs k with
    | none =>
      simp only [setAttrsJsonGo, List.filterMap_cons, appliedOf, hg, ih']
    | some a =>
      by_cases hw : a.supportsWrite = true
      · cases hp : a.attributeType.parseJson v with
        | error e =>
          simp only [setAttrsJsonGo, List.filterMap_cons, appliedOf, hg, hw, hp, if_true, ih']
        | ok val =>
          have hs : setf did a.id val = .ok () := by
            have hk' := hk
            simp only [keyOkB, hg, hw, hp, if_true] at hk'
            exact of_decide_eq_true hk'
          simp only [setAttrsJsonGo, List.filterMap_cons, appliedOf, hg, hw, hp, if_true,
            hs, ih']
      · have hw' : a.supportsWrite = false := by
          cases hww : a.supportsWrite
          · rfl
          · exact absurd hww hw
        simp only [setAttrsJsonGo, List.filterMap_cons, appliedOf, hg, hw',
          Bool.false_eq_true, if_false, ih']

/-- Claim C3: in a whole-device JSON write, every key that does not name a
known writable attribute, and every key whose JSON value fails to decode
for the attribute's declared type, is skipped without failing the batch;
the keys that decode are applied in order; and after the key loop the
device's id is enqueued for repoll (the queue having room) with no error
returned to the caller. -/
theorem c3_whole_device_json :
    ∀ setf did (dev : LongDevice) kvs q,
      kvs.all (keyOkB setf did dev.attributes) = true →
      q.length < 10 →
      setDeviceAttributesJson setf did dev (.obj kvs) q
        = .ok (kvs.filterMap (appliedOf dev.attributes), q ++ [did]) := by
  intro setf did dev kvs q hall hq
  simp only [setDeviceAttributesJson, setAttrsJsonGo_ok setf did dev.attributes kvs hall,
    trySend, if_pos hq]

/-- Claim C3 witness: a payload with one valid key and one unknown key
applies the valid key, enqueues a repoll, and returns no error. -/
theorem c3_witness :
    setDeviceAttributesJson (fun _ _ _ => .ok ()) 4 demoDevice
      (.obj [("On_Off".data, .jbool true), ("Nope".data, .jbool true)]) []
      = .ok ([(1, .bool true)], [4]) := by
  have h := c3_whole_device_json (fun _ _ _ => .ok ()) 4 demoDevice
    [("On_Off".data, .jbool true), ("Nope".data, .jbool true)] [] (by decide) (by decide)
  exact h

theorem filterMap_parseRow_all_ok :
    ∀ (l : List AttrRow), (∀ r ∈ l, (parseRow r).isOk = true) →
      (l.filterMap (fun r => (parseRow r).toOption)).length = l.length := by
  intro l
  induction l with
  | nil => intro _; rfl
  | cons r rest ih =>
    intro h
    cases hr : parseRow r with
    | error e =>
      have := h r (List.mem_cons_self r rest)
      rw [hr] at this
      cases this
    | ok d =>
      have hro : (parseRow r).toOption = some d := by rw [hr]; rfl
      simp only [List.filterMap_cons, hro, List.length_cons]
      rw [ih (fun x hx => h x (List.mem_cons_of_mem r hx))]

theorem parseRow_error_of_bad_type (r : AttrRow)
    (h : (parseTypeTok r.typeStr).isOk = false) :
    (parseRow r).toOption = none := by
  cases ht : parseTypeTok r.typeStr with
  | error e => simp only [parseRow, ht, Except.toOption]
  | ok t => rw [ht] at h; cases h

/-- Claim C4: with a `LONG_DEVICE_REGEX` match whose attribute rows are all
well-formed except one row with an unrecognized TYPE token, `describe`
succeeds and its attribute list is exactly the remaining rows, in order
(so a 15-row table with one malformed row yields 14 attributes); whereas
with no regex match at all the whole call fails with the raw text in the
error. -/
theorem c4_describe_row_errors :
    ∀ mid stdout (caps : LongCaptures) (pre post : List AttrRow) (bad : AttrRow),
      caps.rows = pre ++ bad :: post →
      (parseMetas caps).isOk = true →
      (∀ r ∈ pre, (parseRow r).isOk = true) →
      (∀ r ∈ post, (parseRow r).isOk = true) →
      (parseTypeTok bad.typeStr).isOk = false →
      (∃ d, describeFromCaptures mid stdout (some caps) = .ok d ∧
        d.attributes = pre.filterMap (fun r => (parseRow r).toOption)
          ++ post.filterMap (fun r => (parseRow r).toOption) ∧
        d.attributes.length = pre.length + post.length) ∧
      describeFromCaptures mid stdout none = .error (.noMatch stdout) := by
  intro mid stdout caps pre post bad hrows hmeta hpre hpost hbad
  refine ⟨?_, rfl⟩
  cases hpm : parseMetas caps with
  | error e => rw [hpm] at hmeta; cases hmeta
  | ok metas =>
    obtain ⟨g, gd, sd, mi, pt, pn⟩ := metas
    refine ⟨{ gangId := g, genericDeviceType := gd, specificDeviceType := sd,
              manufacturerId := mi, productType := pt, productNumber := pn, id := mid,
              status := caps.deviceStatus.getD [], name := caps.nameStr.getD [],
              attributes := caps.rows.filterMap (fun r => (parseRow r).toOption) },
      by simp only [describeFromCaptures, hpm], ?_, ?_⟩
    · simp only [hrows, List.filterMap_append, List.filterMap_cons,
        parseRow_error_of_bad_type bad hbad]
    · simp only [hrows, List.filterMap_append, List.filterMap_cons,
        parseRow_error_of_bad_type bad hbad, List.length_append,
        filterMap_parseRow_all_ok pre hpre, filterMap_parseRow_all_ok post hpost]

/-- Claim C4 witness: a 15-row capture with one malformed TYPE token yields
a device with exactly 14 attributes; an unmatched output fails with the raw
text attached. -/
theorem c4_witness :
    (∃ d, describeFromCaptures 2 [] (some
      { gangId := none, genericDeviceType := none, specificDeviceType := none,
        manufacturerId := none, productType := none, productNumber := none,
        deviceStatus := some "ONLINE".data, nameStr := some "X".data,
        rows :=
          List.replicate 7 (⟨"1".data, "A".data, "UINT8".data, "R".data, "0".data, []⟩ : AttrRow)
          ++ (⟨"2".data, "B".data, "FLOAT".data, "R".data, [], []⟩ : AttrRow)
            :: List.replicate 7
              (⟨"1".data, "A".data, "UINT8".data, "R".data, "0".data, []⟩ : AttrRow) })
      = .ok d ∧ d.attributes.length = 14) ∧
    describeFromCaptures 2 "garbage".data none = .error (.noMatch "garbage".data) := by
  constructor
  · obtain ⟨d, h1, _, h3⟩ := (c4_describe_row_errors 2 []
      { gangId := none, genericDeviceType := none, specificDeviceType := none,
        manufacturerId := none, productType := none, productNumber := none,
        deviceStatus := some "ONLINE".data, nameStr := some "X".data,
        rows :=
          List.replicate 7 (⟨"1".data, "A".data, "UINT8".data, "R".data, "0".data, []⟩ : AttrRow)
          ++ (⟨"2".data, "B".data, "FLOAT".data, "R".data, [], []⟩ : AttrRow)
            :: List.replicate 7
              (⟨"1".data, "A".data, "UINT8".data, "R".data, "0".data, []⟩ : AttrRow) }
      (List.replicate 7 (⟨"1".data, "A".data, "UINT8".data, "R".data, "0".data, []⟩ : AttrRow))
      (List.replicate 7 (⟨"1".data, "A".data, "UINT8".data, "R".data, "0".data, []⟩ : AttrRow))
      (⟨"2".data, "B".data, "FLOAT".data, "R".data, [], []⟩ : AttrRow)
      rfl (by decide) (by decide) (by decide) (by decide)).1
    exact ⟨d, h1, h3⟩
  · exact (c4_describe_row_errors 2 "garbage".data
      { gangId := none, genericDeviceType := none, specificDeviceType := none,
        manufacturerId := none, productType := none, productNumber := none,
        deviceStatus := none, nameStr := none,
        rows := [⟨[], [], "FLOAT".data, [], [], []⟩] }
      [] [] ⟨[], [], "FLOAT".data, [], [], []⟩ (by decide) (by decide) (by decide)
      (by decide) (by decide)).2

theorem foldl_mapInsert_nodup :
    ∀ (l acc : List (List Char × Json)), ((acc ++ l).map Prod.fst).Nodup →
      l.foldl mapInsert acc = acc ++ l := by
  intro l
  induction l with
  | nil => intro acc _; simp
  | cons kv rest ih =>
    intro acc h
    have hnotin : kv.1 ∉ acc.map Prod.fst := by
      intro hmem
      rw [List.map_append, List.map_cons] at h
      exact (List.disjoint_of_nodup_append h) hmem (List.mem_cons_self kv.1 _)
    have hany : acc.any (fun p => p.1 = kv.1) = false := by
      rw [List.any_eq_false]
      intro p hp
      simp only [decide_eq_true_eq]
      intro hpk
      exact hnotin (hpk ▸ List.mem_map_of_mem Prod.fst hp)
    have hins : mapInsert acc kv = acc ++ [kv] := by
      simp only [mapInsert, hany, Bool.false_eq_true, if_false]
    have happ : (acc ++ [kv]) ++ rest = acc ++ kv :: rest := by simp
    rw [List.foldl_cons, hins, ih (acc ++ [kv]) (by rw [happ]; exact h), happ]

theorem collectMap_nodup (l : List (List Char × Json))
    (h : (l.map Prod.fst).Nodup) : collectMap l = l :=
  foldl_mapInsert_nodup l [] (by simpa using h)

theorem find?_map_desc (f : DeviceAttribute → Json) :
    ∀ (attrs : List DeviceAttribute) (a : DeviceAttribute),
      (attrs.map (fun x => x.description)).Nodup → a ∈ attrs →
      (attrs.map (fun x => (x.description, f x))).find? (fun p => p.1 = a.description)
        = some (a.description, f a) := by
  intro attrs
  induction attrs with
  | nil => intro a _ ha; cases ha
  | cons b rest ih =>
    intro a hnd ha
    rw [List.map_cons, List.nodup_cons] at hnd
    by_cases hb : b.description = a.description
    · have hab : a = b := by
        rcases List.mem_cons.mp ha with h' | h'
        · exact h'
        · exact absurd (hb ▸ List.mem_map_of_mem (fun x => x.description) h') hnd.1
      subst hab
      rw [List.map_cons, List.find?_cons_of_pos _ (by simp [hb])]
    · have ha' : a ∈ rest := by
        rcases List.mem_cons.mp ha with h' | h'
        · exact absurd (h' ▸ rfl) hb
        · exact h'
      rw [List.map_cons, List.find?_cons_of_neg _ (by simpa using hb)]
      exact ih a hnd.2 ha'

/-- Claim C6: the status publish built by `poll_device_` goes to the
device's status topic, is retained, and its payload maps each attribute's
description (descriptions being distinct) to
`setting_value.or(current_value)` encoded to JSON, where `or` returns the
other value exactly when the receiver is `NoValue`. -/
theorem c6_poll_status :
    ∀ (c : Config) (dev : LongDevice) p,
      c.topicPre = some p →
      pollDevicePublish c dev = some (p ++ natToDec dev.id ++ "/status".data,
        collectMap (dev.attributes.map
          (fun x => (x.description, (x.settingValue.or x.currentValue).toJson))),
        true) ∧
      ((dev.attributes.map (fun x => x.description)).Nodup →
        ∀ a ∈ dev.attributes,
          lookupKV (collectMap (dev.attributes.map
              (fun x => (x.description, (x.settingValue.or x.currentValue).toJson))))
            a.description
            = some ((a.settingValue.or a.currentValue).toJson)) ∧
      (∀ w, AttributeValue.or .noValue w = w) ∧
      (∀ v w, v ≠ .noValue → AttributeValue.or v w = v) := by
  intro c dev p hp
  refine ⟨?_, ?_, fun w => rfl, fun v w hv => by simp [AttributeValue.or, hv]⟩
  · simp [pollDevicePublish, Config.toTopicString, hp]
  · intro hnd a ha
    have hkeys : ((dev.attributes.map
        (fun x => (x.description, (x.settingValue.or x.currentValue).toJson))).map
          Prod.fst).Nodup := by
      rw [List.map_map]
      exact hnd
    rw [collectMap_nodup _ hkeys]
    unfold lookupKV
    rw [find?_map_desc (fun x => (x.settingValue.or x.currentValue).toJson) dev.attributes
      a hnd ha]
    rfl

/-- Claim C6 witness: the payload lookup instantiated on a concrete device
with a pending `NoValue` setting value. -/
theorem c6_witness :
    lookupKV (collectMap (demoDevice.attributes.map
        (fun x => (x.description, (x.settingValue.or x.currentValue).toJson))))
      "On_Off".data = some Json.null := by
  exact (c6_poll_status testCfg demoDevice "topic/prefix/".data rfl).2.1 (by decide)
    ⟨1, "On_Off".data, .bool, true, true, .noValue, .noValue⟩ (by decide)

theorem isPre0x_natToDec (d : Nat) : isPre "0x".data (natToDec d) = false := by
  obtain ⟨c, cs, hc⟩ := List.exists_cons_of_ne_nil (natToDec_ne_nil d)
  rw [hc]
  cases cs with
  | nil => simp [isPre]
  | cons c2 cs2 =>
    have h2 : (digit? c2).isSome = true :=
      natToDec_digit d c2 (by rw [hc]; exact List.mem_cons_of_mem _ (List.mem_cons_self c2 cs2))
    have hx : ¬('x' = c2) := by
      intro he
      rw [← he] at h2
      exact absurd h2 (by decide)
    simp [isPre, hx]

theorem parseNumberish_natToDec (w d : Nat) (h : d < 2 ^ w) (hw : w ≤ 64) :
    parseNumberish w (natToDec d) = .ok d := by
  have h64 : d < 2 ^ 64 := lt_of_lt_of_le h (Nat.pow_le_pow_right (by omega) hw)
  unfold parseNumberish parseNumberishU64
  simp only [isPre0x_natToDec d, Bool.false_eq_true, if_false,
    rustParseU_natToDec 64 d h64, h, if_true]

theorem parseComps_setJson (raw : List Char) (n : Nat) (h : n < 2 ^ 64) :
    parseComps raw [natToDec n, "set".data] = .ok (.setJson (n % 2 ^ 32)) := by
  simp [parseComps, rustParseU_natToDec 64 n h, Except.mapError]

theorem parseComps_status (raw : List Char) (n : Nat) (h : n < 2 ^ 64) :
    parseComps raw [natToDec n, "status".data] = .ok (.status (n % 2 ^ 32)) := by
  simp [parseComps, rustParseU_natToDec 64 n h, Except.mapError]

theorem parseComps_setAttr (raw : List Char) (n m : Nat) (hn : n < 2 ^ 64)
    (hm : m < 2 ^ 64) :
    parseComps raw [natToDec n, natToDec m, "set".data]
      = .ok (.setAttr (n % 2 ^ 32) (m % 2 ^ 32)) := by
  simp [parseComps, rustParseU_natToDec 64 n hn, rustParseU_natToDec 64 m hm, Except.mapError]

theorem splitSlash_seg_set (n : Nat) :
    splitSlash (natToDec n ++ "/set".data) = [natToDec n, "set".data] := by
  have h1 : natToDec n ++ "/set".data = natToDec n ++ '/' :: "set".data := rfl
  rw [h1, splitSlash_append _ _ (not_mem_natToDec '/' (by decide) n)]
  rfl

theorem splitSlash_seg_status (n : Nat) :
    splitSlash (natToDec n ++ "/status".data) = [natToDec n, "status".data] := by
  have h1 : natToDec n ++ "/status".data = natToDec n ++ '/' :: "status".data := rfl
  rw [h1, splitSlash_append _ _ (not_mem_natToDec '/' (by decide) n)]
  rfl

theorem splitSlash_seg_two (n m : Nat) :
    splitSlash (natToDec n ++ '/' :: (natToDec m ++ "/set".data))
      = [natToDec n, natToDec m, "set".data] := by
  rw [splitSlash_append _ _ (not_mem_natToDec '/' (by decide) n), splitSlash_seg_set m]

theorem parseMqttTopic_main (c : Config) (p rest : List Char)
    (hp : c.topicPre = some p)
    (hl : c.isDiscoveryListenTopic (p ++ rest) = false)
    (hd : c.isDiscoveryTopic (p ++ rest) = false) :
    c.parseMqttTopic (p ++ rest) = parseComps (p ++ rest) (splitSlash rest) := by
  unfold Config.parseMqttTopic
  simp only [hl, hd, Bool.false_eq_true, if_false, Config.isInterestingTopic, hp,
    isPre_append_self, if_true, List.drop_left]

/-- Claim C10: under the main prefix, the device-id and attribute-id
segments are parsed as `u64` and then truncated `as u32`, so a segment
with value `n ≥ 2 ^ 32` (still within `u64`) is accepted and classified
with id `n % 2 ^ 32` rather than rejected. -/
theorem c10_truncation :
    ∀ (tp : List Char) (n m : Nat),
      2 ^ 32 ≤ n → n < 2 ^ 64 → 2 ^ 32 ≤ m → m < 2 ^ 64 →
      (Config.new (some tp) none none 0 none).parseMqttTopic
        (normalizeTopicPre tp ++ (natToDec n ++ "/set".data)) = .ok (.setJson (n % 2 ^ 32)) ∧
      (Config.new (some tp) none none 0 none).parseMqttTopic
        (normalizeTopicPre tp ++ (natToDec n ++ "/status".data)) = .ok (.status (n % 2 ^ 32)) ∧
      (Config.new (some tp) none none 0 none).parseMqttTopic
        (normalizeTopicPre tp ++ (natToDec n ++ '/' :: (natToDec m ++ "/set".data)))
        = .ok (.setAttr (n % 2 ^ 32) (m % 2 ^ 32)) := by
  intro tp n m _ hn _ hm
  have hp : (Config.new (some tp) none none 0 none).topicPre = some (normalizeTopicPre tp) :=
    rfl
  refine ⟨?_, ?_, ?_⟩
  · rw [parseMqttTopic_main _ _ _ hp rfl rfl, splitSlash_seg_set n,
      parseComps_setJson _ n hn]
  · rw [parseMqttTopic_main _ _ _ hp rfl rfl, splitSlash_seg_status n,
      parseComps_status _ n hn]
  · rw [parseMqttTopic_main _ _ _ hp rfl rfl, splitSlash_seg_two n m,
      parseComps_setAttr _ n m hn hm]

/-- Claim C10 witness: the truncation at concrete inputs `2^32 + 7` and
`2^32 + 3`. -/
theorem c10_witness :
    (Config.new (some "topic/prefix/".data) none none 0 none).parseMqttTopic
      (normalizeTopicPre "topic/prefix/".data ++ (natToDec (2 ^ 32 + 7) ++ "/set".data))
      = .ok (.setJson 7) := by
  have h := (c10_truncation "topic/prefix/".data (2 ^ 32 + 7) (2 ^ 32 + 3)
    (by norm_num) (by norm_num) (by norm_num) (by norm_num)).1
  simpa using h

theorem takeWhile_append_cons (p : Char → Bool) :
    ∀ (l : List Char) (a : Char) (r : List Char),
      (∀ c ∈ l, p c = true) → p a = false →
      (l ++ a :: r).takeWhile p = l := by
  intro l
  induction l with
  | nil =>
    intro a r _ ha
    simp [List.takeWhile_cons, ha]
  | cons c t ih =>
    intro a r hl ha
    rw [List.cons_append, List.takeWhile_cons, hl c (List.mem_cons_self c t)]
    rw [ih a r (fun x hx => hl x (List.mem_cons_of_mem c hx)) ha]
    simp

theorem matchDiscovery_wink (comp : List Char) (d : Nat)
    (hne : comp ≠ []) (hns : '/' ∉ comp) :
    matchDiscovery
        (comp ++ '/' :: ('w' :: 'i' :: 'n' :: 'k' :: '_' :: (natToDec d ++ "/config".data)))
      = some (comp, natToDec d) := by
  have htw : (comp ++ '/' :: ('w' :: 'i' :: 'n' :: 'k' :: '_'
        :: (natToDec d ++ "/config".data))).takeWhile (fun c => !(decide (c = '/'))) = comp :=
    takeWhile_append_cons _ comp '/' _
      (fun c hc => by
        have hcs : ¬(c = '/') := fun h => hns (h ▸ hc)
        simp [hcs])
      (by simp)
  have hd2 : natToDec d ++ "/config".data = natToDec d ++ '/' :: "config".data := rfl
  have htd : (natToDec d ++ '/' :: "config".data).takeWhile
      (fun c => (digit? c).isSome) = natToDec d :=
    takeWhile_append_cons _ (natToDec d) '/' _
      (fun c hc => natToDec_digit d c hc) (by decide)
  unfold matchDiscovery
  simp only [htw, List.drop_left]
  rw [if_neg hne]
  have hw : isPre "/wink_".data
      ('/' :: 'w' :: 'i' :: 'n' :: 'k' :: '_' :: (natToDec d ++ "/config".data)) = true := rfl
  rw [hw]
  simp only [if_true]
  have hdrop : List.drop 6
      ('/' :: 'w' :: 'i' :: 'n' :: 'k' :: '_' :: (natToDec d ++ "/config".data))
      = natToDec d ++ "/config".data := rfl
  rw [hdrop, hd2, htd]
  rw [if_neg (natToDec_ne_nil d), List.drop_left]
  have hcfg : isPre "/config".data ('/' :: "config".data) = true := by decide
  rw [hcfg]
  simp

theorem discoverySearch_wink (comp : List Char) (d : Nat)
    (hne : comp ≠ []) (hns : '/' ∉ comp) :
    discoverySearch
        (comp ++ '/' :: ('w' :: 'i' :: 'n' :: 'k' :: '_' :: (natToDec d ++ "/config".data)))
      = some (comp, natToDec d) := by
  obtain ⟨c0, t0, hc⟩ := List.exists_cons_of_ne_nil hne
  have hm := matchDiscovery_wink comp d hne hns
  rw [hc] at hm ⊢
  simp only [List.cons_append] at hm ⊢
  simp only [discoverySearch, hm]

theorem parseMqttTopic_discovery (c : Config) (p rest : List Char)
    (hp : c.discoveryPre = some p)
    (hl : c.isDiscoveryListenTopic (p ++ rest) = false) :
    c.parseMqttTopic (p ++ rest) =
      (match discoverySearch rest with
       | none => .error (.invalidDiscovery (p ++ rest))
       | some (comp, digs) =>
         match parseNumberish 32 digs with
         | .error e => .error (.numErr e)
         | .ok n => .ok (.discovery comp n)) := by
  unfold Config.parseMqttTopic
  simp only [hl, Bool.false_eq_true, if_false, Config.isDiscoveryTopic, hp,
    isPre_append_self, if_true, List.drop_left]

/-- Claim C2 counterexample: with the normalized full configuration of the
source's own test, the discovery topic for an empty component formats to a
string containing the doubled separator `//`, and that string does not
parse back to the same topic (the discovery regex finds no match). -/
theorem c2_counterexample :
    testCfg.toTopicString (.discovery [] 1)
      = some "discovery/topic/prefix//wink_1/config".data ∧
    noDoubleSlash "discovery/topic/prefix//wink_1/config".data = false ∧
    testCfg.parseMqttTopic "discovery/topic/prefix//wink_1/config".data
      = .error (.invalidDiscovery "discovery/topic/prefix//wink_1/config".data) := by
  refine ⟨by decide, by decide, by decide⟩

theorem noDoubleSlash_iff :
    ∀ l : List Char, noDoubleSlash l = true ↔
      List.Chain' (fun x y => ¬(x = '/' ∧ y = '/')) l := by
  intro l
  induction l with
  | nil => simp [noDoubleSlash]
  | cons a t ih =>
    cases t with
    | nil => simp [noDoubleSlash]
    | cons b r =>
      rw [List.chain'_cons, ← ih]
      simp only [noDoubleSlash, Bool.and_eq_true, Bool.not_eq_true', Bool.and_eq_false_iff,
        decide_eq_false_iff_not, decide_eq_true_eq]
      constructor
      · rintro ⟨h1, h2⟩
        refine ⟨?_, h2⟩
        rintro ⟨ha, hb⟩
        rcases h1 with h1 | h1
        · exact h1 ha
        · exact h1 hb
      · rintro ⟨h1, h2⟩
        refine ⟨?_, h2⟩
        by_cases ha : a = '/'
        · exact Or.inr (fun hb => h1 ⟨ha, hb⟩)
        · exact Or.inl ha

theorem chain_noslash (l : List Char) (h : '/' ∉ l) :
    List.Chain' (fun x y => ¬(x = '/' ∧ y = '/')) l := by
  induction l with
  | nil => exact List.chain'_nil
  | cons a t ih =>
    rw [List.chain'_cons']
    refine ⟨fun y _ hy => h ?_, ih (fun hm => h (List.mem_cons_of_mem a hm))⟩
    rw [← hy.1]
    exact List.mem_cons_self a t

theorem getLast?_natToDec_ne (d : Nat) : ∀ x ∈ (natToDec d).getLast?, ¬x = '/' := by
  intro x hx hxs
  obtain ⟨hne, hxe⟩ := List.mem_getLast?_eq_getLast hx
  exact not_mem_natToDec '/' (by decide) d (hxs ▸ hxe ▸ List.getLast_mem hne)

theorem head?_natToDec_ne (d : Nat) : ∀ y ∈ (natToDec d).head?, ¬y = '/' := by
  intro y hy hys
  exact not_mem_natToDec '/' (by decide) d (hys ▸ List.mem_of_mem_head? hy)

theorem head?_dec_append (d : Nat) (tail : List Char) :
    ∀ y ∈ (natToDec d ++ tail).head?, ¬y = '/' := by
  intro y hy
  obtain ⟨c, cs, hc⟩ := List.exists_cons_of_ne_nil (natToDec_ne_nil d)
  rw [hc, List.cons_append, List.head?_cons, Option.mem_some_iff] at hy
  exact head?_natToDec_ne d y (by rw [hc, List.head?_cons, Option.mem_some_iff]; exact hy)

theorem chain_dec_tail (d : Nat) (tail : List Char)
    (htail : List.Chain' (fun x y => ¬(x = '/' ∧ y = '/')) tail) :
    List.Chain' (fun x y => ¬(x = '/' ∧ y = '/')) (natToDec d ++ tail) := by
  rw [List.chain'_append]
  refine ⟨chain_noslash _ (not_mem_natToDec '/' (by decide) d), htail, ?_⟩
  intro x hx y _ hxy
  exact getLast?_natToDec_ne d x hx hxy.1

theorem chain_p_dec_tail (p tail : List Char) (d : Nat)
    (hp : List.Chain' (fun x y => ¬(x = '/' ∧ y = '/')) p)
    (htail : List.Chain' (fun x y => ¬(x = '/' ∧ y = '/')) tail) :
    List.Chain' (fun x y => ¬(x = '/' ∧ y = '/')) (p ++ (natToDec d ++ tail)) := by
  rw [List.chain'_append]
  refine ⟨hp, chain_dec_tail d tail htail, ?_⟩
  intro x _ y hy hxy
  exact head?_dec_append d tail y hy hxy.2

/-- Claim C2 (amended): for the normalized full configuration used by the
source's own test, every topic whose ids fit in `u32` and whose discovery
component is nonempty and slash-free formats to a string that parses back
to the same topic and contains no doubled separator.  (The law fails for
degenerate components — see the counterexample — and for configurations
whose three topics overlap.) -/
theorem c2_topic_roundtrip :
    ∀ (d a : Nat) (comp : List Char),
      d < 2 ^ 32 → a < 2 ^ 32 → comp ≠ [] → '/' ∉ comp →
      topicRoundtrips testCfg (.setJson d) ∧
      topicRoundtrips testCfg (.setAttr d a) ∧
      topicRoundtrips testCfg (.status d) ∧
      topicRoundtrips testCfg (.discovery comp d) ∧
      topicRoundtrips testCfg .discoveryListen := by
  intro d a comp hd ha hcne hcns
  have htp : testCfg.topicPre = some "topic/prefix/".data := rfl
  have hdp : testCfg.discoveryPre = some "discovery/topic/prefix/".data := rfl
  have hd64 : d < 2 ^ 64 := by omega
  have ha64 : a < 2 ^ 64 := by omega
  have hchainTp : List.Chain' (fun x y => ¬(x = '/' ∧ y = '/')) "topic/prefix/".data :=
    (noDoubleSlash_iff _).mp (by decide)
  have hchainDp : List.Chain' (fun x y => ¬(x = '/' ∧ y = '/')) "discovery/topic/prefix/".data :=
    (noDoubleSlash_iff _).mp (by decide)
  refine ⟨?_, ?_, ?_, ?_, ?_⟩
  · refine ⟨"topic/prefix/".data ++ (natToDec d ++ "/set".data), ?_, ?_, ?_⟩
    · rfl
    · rw [parseMqttTopic_main testCfg _ _ htp rfl rfl, splitSlash_seg_set d,
        parseComps_setJson _ d hd64, Nat.mod_eq_of_lt hd]
    · exact (noDoubleSlash_iff _).mpr (chain_p_dec_tail _ _ d hchainTp
        ((noDoubleSlash_iff _).mp (by decide)))
  · refine ⟨"topic/prefix/".data ++ (natToDec d ++ ('/' :: (natToDec a ++ "/set".data))),
      ?_, ?_, ?_⟩
    · rfl
    · rw [parseMqttTopic_main testCfg _ _ htp rfl rfl, splitSlash_seg_two d a,
        parseComps_setAttr _ d a hd64 ha64, Nat.mod_eq_of_lt hd, Nat.mod_eq_of_lt ha]
    · refine (noDoubleSlash_iff _).mpr (chain_p_dec_tail _ _ d hchainTp ?_)
      rw [List.chain'_cons']
      refine ⟨fun y hy hxy => head?_dec_append a "/set".data y hy hxy.2,
        chain_dec_tail a _ ((noDoubleSlash_iff _).mp (by decide))⟩
  · refine ⟨"topic/prefix/".data ++ (natToDec d ++ "/status".data), ?_, ?_, ?_⟩
    · rfl
    · rw [parseMqttTopic_main testCfg _ _ htp rfl rfl, splitSlash_seg_status d,
        parseComps_status _ d hd64, Nat.mod_eq_of_lt hd]
    · exact (noDoubleSlash_iff _).mpr (chain_p_dec_tail _ _ d hchainTp
        ((noDoubleSlash_iff _).mp (by decide)))
  · refine ⟨"discovery/topic/prefix/".data
        ++ (comp ++ ("/wink_".data ++ (natToDec d ++ "/config".data))), ?_, ?_, ?_⟩
    · rw [show testCfg.toTopicString (.discovery comp d)
        = some ("discovery/topic/prefix/".data ++ comp ++ "/wink_".data
          ++ natToDec d ++ "/config".data) from rfl]
      simp only [List.append_assoc]
    · rw [parseMqttTopic_discovery testCfg _ _ hdp rfl]
      have hr : comp ++ ("/wink_".data ++ (natToDec d ++ "/config".data))
          = comp ++ '/' :: ('w' :: 'i' :: 'n' :: 'k' :: '_'
            :: (natToDec d ++ "/config".data)) := rfl
      rw [hr, discoverySearch_wink comp d hcne hcns]
      simp only [parseNumberish_natToDec 32 d hd (by omega)]
    · refine (noDoubleSlash_iff _).mpr ?_
      rw [List.chain'_append]
      refine ⟨hchainDp, ?_, ?_⟩
      · rw [List.chain'_append]
        refine ⟨chain_noslash comp hcns, ?_, ?_⟩
        · rw [List.chain'_append]
          refine ⟨(noDoubleSlash_iff _).mp (by decide),
            chain_dec_tail d _ ((noDoubleSlash_iff _).mp (by decide)), ?_⟩
          intro x hx y hy hxy
          have : x = '_' := by
            have h6 : ("/wink_".data : List Char).getLast? = some '_' := by decide
            rw [h6, Option.mem_some_iff] at hx
            exact hx.symm
          rw [this] at hxy
          exact absurd hxy.1 (by decide)
        · intro x hx y _ hxy
          obtain ⟨hne, hxe⟩ := List.mem_getLast?_eq_getLast hx
          exact hcns (hxy.1 ▸ hxe ▸ List.getLast_mem hne)
      · intro x _ y hy hxy
        obtain ⟨c0, t0, hc⟩ := List.exists_cons_of_ne_nil hcne
        rw [hc, List.cons_append, List.head?_cons, Option.mem_some_iff] at hy
        refine hcns ?_
        rw [← hxy.2, ← hy, hc]
        exact List.mem_cons_self c0 t0
  · exact ⟨"fire/discovery".data, by decide, by decide, by decide⟩

/-- Claim C2 witness: the round-trip at the concrete topics of the
source's own `full_config` test. -/
theorem c2_witness :
    topicRoundtrips testCfg (.setJson 1) ∧
    topicRoundtrips testCfg (.setAttr 1 3) ∧
    topicRoundtrips testCfg (.status 1) ∧
    topicRoundtrips testCfg (.discovery "light".data 1) ∧
    topicRoundtrips testCfg .discoveryListen :=
  c2_topic_roundtrip 1 3 "light".data (by decide) (by decide) (by decide) (by decide)

end WinkMqtt







